import Mathlib

/-!
Shallow embedding of `src/app.py` (a Streamlit résumé-screening app).

The app is a linear script: a sidebar API-key field, a job-description
text area, a multi-file PDF uploader, and a button handler that runs a
sequential batch loop.  We model the user-visible effects of one run of
the handler as a list of `Event`s, and the two external collaborators
(the PDF library and the generative-AI client) as oracles supplied in an
`Env` / in the `UploadedFile` value itself.  A raised Python exception
that is not caught is modelled as `Except.error msg` flowing outward.
-/

/-- A user-visible effect of the script, in order of occurrence.
`modelCall` records a request sent to the generative-AI endpoint with
the full prompt; `progress` records `progress_bar.progress((i+1)/n)` as
the pair (numerator, denominator); `sleep` records `time.sleep(secs)`;
`exception` records an uncaught exception aborting the script run. -/
inductive Event where
  | error (msg : String)
  | warning (msg : String)
  | markdown (s : String)
  | subheader (s : String)
  | expander (title : String)
  | modelCall (prompt : String)
  | progress (num den : Nat)
  | sleep (secs : Nat)
  | success (msg : String)
  | exception (msg : String)
  deriving DecidableEq, Repr

/-- An uploaded PDF file as the script can observe it through `pypdf`:
its `name`, and the outcome of `PdfReader(pdf_file)`: either a raised
exception (with its message) or the list of pages, where each page's
`extract_text()` either raises or yields a string. -/
structure UploadedFile where
  name : String
  parse : Except String (List (Except String String))

/-- The generative-AI client as the script observes it:
`configure` models `genai.configure(api_key=...)` (error = raised
exception message); `generateContent` models
`GenerativeModel(model_name)` plus `model.generate_content(prompt)` plus
the `response.text` access, collapsed to one outcome per prompt. -/
structure Env where
  configure : String → Except String Unit
  generateContent : String → Except String String

/-- Python substring membership on `List Char`: does `ns` start `hs`. -/
def chListStarts : List Char → List Char → Bool
  | [], _ => true
  | _ :: _, [] => false
  | n :: ns, h :: hs => n == h && chListStarts ns hs

/-- Python substring membership on `List Char`: does `ns` occur in the list. -/
def chListOccurs (ns : List Char) : List Char → Bool
  | [] => chListStarts ns []
  | h :: hs => chListStarts ns (h :: hs) || chListOccurs ns hs

/-- Python `needle in hay` on strings. -/
def strIn (needle hay : String) : Bool := chListOccurs needle.data hay.data

/-- The loop body of `get_pdf_text`: `text = ""` then
`for page in pdf_reader.pages: text += page.extract_text()`, where a
page whose extraction raises aborts the loop with that exception. -/
def extractAll (acc : String) : List (Except String String) → Except String String
  | [] => Except.ok acc
  | Except.error e :: _ => Except.error e
  | Except.ok t :: rest => extractAll (acc ++ t) rest

/-- Embedding of `get_pdf_text` (src/app.py lines 39-49).  Returns the
`st.error` events it renders and the Python return value: `none` models
`return None` on any exception, `some text` the accumulated page text. -/
def get_pdf_text (f : UploadedFile) : List Event × Option String :=
  match f.parse with
  | Except.error e =>
      ([Event.error ("Error reading PDF " ++ f.name ++ ": " ++ e)], none)
  | Except.ok pages =>
      match extractAll "" pages with
      | Except.error e =>
          ([Event.error ("Error reading PDF " ++ f.name ++ ": " ++ e)], none)
      | Except.ok text => ([], some text)

/-- The constant `model_name = 'gemini-2.5-flash'` (src/app.py line 59). -/
def model_name : String := "gemini-2.5-flash"

/-- Everything of the prompt f-string (src/app.py lines 63-91) before
`{resume_text}`. -/
def promptPre : String :=
  "\n        Act as a Senior Technical Recruiter and Talent Acquisition Specialist.\n        \n        I will provide you with a CANDIDATE RESUME and a TARGET JOB DESCRIPTION.\n        \n        YOUR GOAL:\n        Provide a concise, professional summary to help a hiring manager quickly decide if they should interview this candidate.\n        \n        OUTPUT FORMAT (Markdown):\n        \n        ### 📋 Executive Summary\n        (3-4 sentences summarizing the candidate\x27s experience level, main industry, and key value proposition.)\n        \n        ### ⭐️ Key Strengths\n        * (List 3-5 top skills/achievements relevant to the Job Description)\n        \n        ### ⚠️ Potential Concerns\n        * (List any red flags like employment gaps, job hopping, or missing key skills. If none, say \"No major concerns detected.\")\n        \n        ### 📊 Match Score: [X]/10\n        (Rate the candidate\x27s fit for the Job Description based on keywords and experience.)\n        \n        ---\n        CANDIDATE RESUME:\n        "

/-- The part of the prompt f-string between `{resume_text}` and
`{job_description}`. -/
def promptMid : String :=
  "\n        \n        TARGET JOB DESCRIPTION:\n        "

/-- The part of the prompt f-string after `{job_description}`. -/
def promptSuf : String := "\n        "

/-- The prompt f-string of `analyze_candidate`: the fixed template with
`resume_text` and `job_description` interpolated, unmodified. -/
def buildPrompt (resume_text job_description : String) : String :=
  promptPre ++ resume_text ++ promptMid ++ job_description ++ promptSuf

/-- The fixed message returned when a caught exception message contains
"404" and `model_name` is already assigned (src/app.py line 99). -/
def model404Message : String :=
  "⚠️ **Model Error:** The AI model `" ++ model_name ++
    "` was not found. Please try upgrading your library: `pip install --upgrade google-generativeai`"

/-- The message of the `UnboundLocalError` raised when the except
handler of `analyze_candidate` evaluates its f-string referencing
`model_name` although `genai.configure` raised before line 59 assigned
it.  In Python this new exception propagates out of the handler. -/
def unboundLocalMsg : String :=
  "UnboundLocalError: cannot access local variable \x27model_name\x27 where it is not associated with a value"

/-- Embedding of `analyze_candidate` (src/app.py lines 51-100).  Returns
the model-call events it performs and either `Except.ok s` (the Python
return value `s`) or `Except.error m` (an exception with message `m`
propagating out of the function).  The only propagating path: when
`genai.configure` raises with a message containing "404", the handler's
f-string reads the local `model_name`, which line 59 has not yet
assigned, so the handler itself raises. -/
def analyze_candidate (env : Env) (resume_text job_description api_key : String) :
    List Event × Except String String :=
  match env.configure api_key with
  | Except.error e =>
      if strIn "404" e then ([], Except.error unboundLocalMsg)
      else ([], Except.ok ("Error processing candidate: " ++ e))
  | Except.ok _ =>
      match env.generateContent (buildPrompt resume_text job_description) with
      | Except.ok t => ([Event.modelCall (buildPrompt resume_text job_description)], Except.ok t)
      | Except.error e =>
          if strIn "404" e then
            ([Event.modelCall (buildPrompt resume_text job_description)], Except.ok model404Message)
          else
            ([Event.modelCall (buildPrompt resume_text job_description)],
              Except.ok ("Error processing candidate: " ++ e))

/-- The body of the batch loop for one file (src/app.py lines 170-179):
open the expander, extract text, and either render the analysis or show
the read error.  `Except.error m` in the second component models an
exception escaping the body (aborting the whole script run). -/
def processFile (env : Env) (job_description api_key : String) (f : UploadedFile) :
    List Event × Except String Unit :=
  match get_pdf_text f with
  | (evs, none) =>
      (Event.expander ("📄 Candidate: " ++ f.name) :: evs ++
        [Event.error "Could not read PDF content."], Except.ok ())
  | (evs, some resume_text) =>
      -- Python `if resume_text:` is a truthiness test: both None and ""
      -- take the else branch.
      if resume_text = "" then
        (Event.expander ("📄 Candidate: " ++ f.name) :: evs ++
          [Event.error "Could not read PDF content."], Except.ok ())
      else
        match analyze_candidate env resume_text job_description api_key with
        | (aevs, Except.ok analysis) =>
            (Event.expander ("📄 Candidate: " ++ f.name) :: evs ++ aevs ++
              [Event.markdown analysis], Except.ok ())
        | (aevs, Except.error e) =>
            (Event.expander ("📄 Candidate: " ++ f.name) :: evs ++ aevs, Except.error e)

/-- The `for i, uploaded_file in enumerate(uploaded_files)` loop
(src/app.py lines 169-183): after each file's body, the progress bar is
set to (i+1)/n and `time.sleep(4)` runs; an exception escaping a body
aborts the loop. -/
def processLoop (env : Env) (job_description api_key : String) (n : Nat) :
    Nat → List UploadedFile → List Event × Except String Unit
  | _, [] => ([], Except.ok ())
  | i, f :: rest =>
      match processFile env job_description api_key f with
      | (evs, Except.error e) => (evs, Except.error e)
      | (evs, Except.ok _) =>
          match processLoop env job_description api_key n (i + 1) rest with
          | (evs2, r2) => (evs ++ Event.progress (i + 1) n :: Event.sleep 4 :: evs2, r2)

/-- Embedding of the "Screen Candidates" button handler (src/app.py
lines 155-185): the three input checks in source order, then the header,
the initial `st.progress(0)`, the loop, and the final success banner
(reached only when no exception aborted the loop). -/
def screenCandidates (env : Env) (api_key : String) (uploaded_files : List UploadedFile)
    (job_description : String) : List Event :=
  if api_key = "" then [Event.warning "Please enter your API Key in the sidebar."]
  else if uploaded_files.isEmpty then [Event.warning "Please upload at least one resume."]
  else if job_description = "" then [Event.warning "Please enter a Job Description for context."]
  else
    Event.markdown "---" ::
    Event.subheader ("Processing " ++ toString uploaded_files.length ++ " Candidates...") ::
    Event.progress 0 uploaded_files.length ::
    match processLoop env job_description api_key uploaded_files.length 0 uploaded_files with
    | (evs, Except.ok _) => evs ++ [Event.success "✅ Batch Screening Complete!"]
    | (evs, Except.error e) => evs ++ [Event.exception e]

/-- A well-behaved generative-AI client used as a concrete fixture. -/
def envGood : Env :=
  { configure := fun _ => Except.ok ()
    generateContent := fun p => Except.ok ("ANALYSIS[" ++ p ++ "]") }

def fileReadable : UploadedFile :=
  { name := "alice.pdf", parse := Except.ok [Except.ok "alice ", Except.ok "resume"] }

def fileUnreadable : UploadedFile :=
  { name := "bad.pdf", parse := Except.error "EOF marker not found" }

example : (get_pdf_text fileReadable).2 = some "alice resume" := by decide
example : (get_pdf_text fileUnreadable).2 = none := by decide
example : strIn "404" "HTTP 404 not found" = true := by decide
example : strIn "404" "quota exceeded" = false := by decide

/-- Predicate picking out model-call events. -/
def isModelCall : Event → Bool := fun ev =>
  match ev with
  | Event.modelCall _ => true
  | _ => false

/-- Predicate picking out sleep events. -/
def isSleep : Event → Bool := fun ev =>
  match ev with
  | Event.sleep _ => true
  | _ => false

/-- The events rendered by `get_pdf_text` are at most one `st.error`. -/
theorem get_pdf_text_events (f : UploadedFile) :
    (get_pdf_text f).1 = [] ∨ ∃ e, (get_pdf_text f).1 = [Event.error e] := by
  cases hp : f.parse with
  | error e =>
      exact Or.inr ⟨"Error reading PDF " ++ f.name ++ ": " ++ e, by simp [get_pdf_text, hp]⟩
  | ok pages =>
      cases hx : extractAll "" pages with
      | error e =>
          exact Or.inr ⟨"Error reading PDF " ++ f.name ++ ": " ++ e,
            by simp [get_pdf_text, hp, hx]⟩
      | ok t => exact Or.inl (by simp [get_pdf_text, hp, hx])

/-- The events performed by `analyze_candidate` are at most one model
call, and any model call carries exactly the built prompt. -/
theorem analyze_candidate_events (env : Env) (r jd key : String) :
    (analyze_candidate env r jd key).1 = [] ∨
      (analyze_candidate env r jd key).1 = [Event.modelCall (buildPrompt r jd)] := by
  cases hc : env.configure key with
  | error e =>
      cases h : strIn "404" e <;> simp [analyze_candidate, hc, h]
  | ok u =>
      cases hg : env.generateContent (buildPrompt r jd) with
      | error e => cases h : strIn "404" e <;> simp [analyze_candidate, hc, hg, h]
      | ok t => simp [analyze_candidate, hc, hg]

/-- No model-call event occurs among the events of `get_pdf_text`. -/
theorem get_pdf_text_no_modelCall (f : UploadedFile) (p : String) :
    Event.modelCall p ∉ (get_pdf_text f).1 := by
  rcases get_pdf_text_events f with h | ⟨e, h⟩ <;> simp [h]

/-- The loop over pages concatenates page texts in order when every
extraction succeeds. -/
theorem extractAll_map_ok (texts : List String) :
    ∀ acc, extractAll acc (texts.map Except.ok) =
      Except.ok (texts.foldl (fun a b => a ++ b) acc) := by
  induction texts with
  | nil => intro acc; rfl
  | cons t rest ih => intro acc; simpa [extractAll] using ih (acc ++ t)

/-- C4: `get_pdf_text`, given a binary PDF blob, returns the
concatenation of the extracted text of every page in page order when
parsing succeeds, and returns the failure sentinel `none` when the
document cannot be parsed. -/
theorem C4_get_pdf_text (f : UploadedFile) :
    (∀ texts : List String, f.parse = Except.ok (texts.map Except.ok) →
      (get_pdf_text f).2 = some (texts.foldl (fun a b => a ++ b) "")) ∧
    (∀ e, f.parse = Except.error e → (get_pdf_text f).2 = none) := by
  constructor
  · intro texts hp
    simp [get_pdf_text, hp, extractAll_map_ok]
  · intro e hp
    simp [get_pdf_text, hp]

/-- Witness for C4 at concrete files: a two-page readable PDF and an
unparseable one. -/
theorem C4_get_pdf_text_witness :
    (fileReadable.parse = Except.ok (["alice ", "resume"].map Except.ok) ∧
      (get_pdf_text fileReadable).2 = some "alice resume") ∧
    (fileUnreadable.parse = Except.error "EOF marker not found" ∧
      (get_pdf_text fileUnreadable).2 = none) :=
  ⟨⟨rfl, (C4_get_pdf_text fileReadable).1 ["alice ", "resume"] rfl⟩,
    ⟨rfl, (C4_get_pdf_text fileUnreadable).2 "EOF marker not found" rfl⟩⟩

/-- Counting model calls and sleeps among the events of `get_pdf_text`:
there are none. -/
theorem get_pdf_text_countP (f : UploadedFile) :
    List.countP isModelCall (get_pdf_text f).1 = 0 ∧
      List.countP isSleep (get_pdf_text f).1 = 0 := by
  rcases get_pdf_text_events f with h | ⟨e, h⟩ <;> simp [h, isModelCall, isSleep]

/-- Counting events of `analyze_candidate`: no sleeps, at most one
model call. -/
theorem analyze_candidate_countP (env : Env) (r jd key : String) :
    List.countP isModelCall (analyze_candidate env r jd key).1 ≤ 1 ∧
      List.countP isSleep (analyze_candidate env r jd key).1 = 0 := by
  rcases analyze_candidate_events env r jd key with h | h <;> simp [h, isModelCall, isSleep]

/-- C1: for every uploaded PDF whose text extraction fails
(`get_pdf_text` returns the sentinel `none`), the batch loop body shows
the page-level read error "Could not read PDF content.", makes no model
call for that file, raises nothing, and the loop continues with the
remaining files exactly as it would have (progress update, sleep, then
the rest of the batch). -/
theorem C1_unreadable_pdf (env : Env) (jd key : String) (f : UploadedFile)
    (h : (get_pdf_text f).2 = none) :
    Event.error "Could not read PDF content." ∈ (processFile env jd key f).1 ∧
    (∀ p, Event.modelCall p ∉ (processFile env jd key f).1) ∧
    (processFile env jd key f).2 = Except.ok () ∧
    ∀ n i rest,
      (processLoop env jd key n i (f :: rest)).1 =
        (processFile env jd key f).1 ++
          Event.progress (i + 1) n :: Event.sleep 4 :: (processLoop env jd key n (i + 1) rest).1 ∧
      (processLoop env jd key n i (f :: rest)).2 = (processLoop env jd key n (i + 1) rest).2 := by
  rcases hgp : get_pdf_text f with ⟨evs, r⟩
  rw [hgp] at h
  simp only at h
  subst h
  have hevs : evs = [] ∨ ∃ e, evs = [Event.error e] := by
    have := get_pdf_text_events f
    rwa [hgp] at this
  have hpf : processFile env jd key f =
      (Event.expander ("📄 Candidate: " ++ f.name) :: evs ++
        [Event.error "Could not read PDF content."], Except.ok ()) := by
    simp [processFile, hgp]
  refine ⟨?_, ?_, ?_, ?_⟩
  · rw [hpf]; simp
  · intro p
    rw [hpf]
    rcases hevs with h0 | ⟨e, h0⟩ <;> subst h0 <;> simp
  · rw [hpf]
  · intro n i rest
    rcases hpl : processLoop env jd key n (i + 1) rest with ⟨evs2, r2⟩
    constructor
    · simp [processLoop, hpf, hpl]
    · simp [processLoop, hpf, hpl]

/-- Witness for C1: a concrete unparseable file in a concrete
environment. -/
theorem C1_unreadable_pdf_witness :
    (get_pdf_text fileUnreadable).2 = none ∧
    (Event.error "Could not read PDF content." ∈
        (processFile envGood "a job" "a key" fileUnreadable).1 ∧
      (∀ p, Event.modelCall p ∉ (processFile envGood "a job" "a key" fileUnreadable).1) ∧
      (processFile envGood "a job" "a key" fileUnreadable).2 = Except.ok () ∧
      ∀ n i rest,
        (processLoop envGood "a job" "a key" n i (fileUnreadable :: rest)).1 =
          (processFile envGood "a job" "a key" fileUnreadable).1 ++
            Event.progress (i + 1) n :: Event.sleep 4 ::
              (processLoop envGood "a job" "a key" n (i + 1) rest).1 ∧
        (processLoop envGood "a job" "a key" n i (fileUnreadable :: rest)).2 =
          (processLoop envGood "a job" "a key" n (i + 1) rest).2) :=
  ⟨rfl, C1_unreadable_pdf envGood "a job" "a key" fileUnreadable rfl⟩

/-- C9 (implicit): a PDF that parses successfully but yields the empty
extracted text is handled like an unreadable one at the page level,
because the loop tests `if resume_text:` (Python truthiness) rather
than comparing against the `None` sentinel: the read error is shown and
no model call is made. -/
theorem C9_empty_text (env : Env) (jd key : String) (f : UploadedFile)
    (h : (get_pdf_text f).2 = some "") :
    Event.error "Could not read PDF content." ∈ (processFile env jd key f).1 ∧
    (∀ p, Event.modelCall p ∉ (processFile env jd key f).1) ∧
    (processFile env jd key f).2 = Except.ok () := by
  rcases hgp : get_pdf_text f with ⟨evs, r⟩
  rw [hgp] at h
  simp only at h
  subst h
  have hevs : evs = [] ∨ ∃ e, evs = [Event.error e] := by
    have := get_pdf_text_events f
    rwa [hgp] at this
  have hpf : processFile env jd key f =
      (Event.expander ("📄 Candidate: " ++ f.name) :: evs ++
        [Event.error "Could not read PDF content."], Except.ok ()) := by
    simp [processFile, hgp]
  refine ⟨?_, ?_, ?_⟩
  · rw [hpf]; simp
  · intro p
    rw [hpf]
    rcases hevs with h0 | ⟨e, h0⟩ <;> subst h0 <;> simp
  · rw [hpf]

/-- A concrete PDF that parses fine (one page) but has an empty text
layer. -/
def fileEmptyText : UploadedFile :=
  { name := "scan.pdf", parse := Except.ok [Except.ok ""] }

/-- Witness for C9: a concrete parse-ok, empty-text file. -/
theorem C9_empty_text_witness :
    (get_pdf_text fileEmptyText).2 = some "" ∧
    (Event.error "Could not read PDF content." ∈
        (processFile envGood "a job" "a key" fileEmptyText).1 ∧
      (∀ p, Event.modelCall p ∉ (processFile envGood "a job" "a key" fileEmptyText).1) ∧
      (processFile envGood "a job" "a key" fileEmptyText).2 = Except.ok ()) :=
  ⟨rfl, C9_empty_text envGood "a job" "a key" fileEmptyText rfl⟩

/-- A list starts with itself. -/
theorem chListStarts_self (l : List Char) : chListStarts l l = true := by
  induction l with
  | nil => rfl
  | cons a as ih => simp [chListStarts, ih]

/-- A list occurs in any list that ends with it. -/
theorem chListOccurs_append_self (ns : List Char) : ∀ hs, chListOccurs ns (hs ++ ns) = true := by
  intro hs
  induction hs with
  | nil =>
      cases ns with
      | nil => rfl
      | cons a as => simp [chListOccurs, chListStarts_self]
  | cons h t ih => simp [chListOccurs, ih]

/-- A string occurs (Python `in`) in any string that ends with it. -/
theorem strIn_append_self (pre e : String) : strIn e (pre ++ e) = true := by
  unfold strIn
  rw [String.data_append]
  exact chListOccurs_append_self e.data pre.data

/-- C2: when the button handler runs with an empty API key, no uploaded
file, or an empty job description, the output is exactly one blocking
warning: the checks run in source order (API key, then files, then job
description), only the first failing one is reported, and nothing is
processed (in particular no model call occurs). -/
theorem C2_input_validation (env : Env) (key : String) (files : List UploadedFile) (jd : String)
    (h : key = "" ∨ files = [] ∨ jd = "") :
    screenCandidates env key files jd =
      [Event.warning (if key = "" then "Please enter your API Key in the sidebar."
        else if files.isEmpty then "Please upload at least one resume."
        else "Please enter a Job Description for context.")] ∧
    ∀ p, Event.modelCall p ∉ screenCandidates env key files jd := by
  by_cases hk : key = ""
  · refine ⟨by simp [screenCandidates, hk], fun p => by simp [screenCandidates, hk]⟩
  · by_cases hf : files = []
    · subst hf
      refine ⟨by simp [screenCandidates, hk], fun p => by simp [screenCandidates, hk]⟩
    · have hjd : jd = "" := by tauto
      have hfe : files.isEmpty = false := by
        simpa [List.isEmpty_iff] using hf
      refine ⟨by simp [screenCandidates, hk, hf, hfe, hjd],
        fun p => by simp [screenCandidates, hk, hfe, hjd]⟩

/-- Witness for C2 at a concrete empty API key. -/
theorem C2_input_validation_witness :
    (("" : String) = "" ∨ ([fileReadable] : List UploadedFile) = [] ∨ ("the jd" : String) = "") ∧
    (screenCandidates envGood "" [fileReadable] "the jd" =
      [Event.warning (if ("" : String) = "" then "Please enter your API Key in the sidebar."
        else if ([fileReadable] : List UploadedFile).isEmpty then "Please upload at least one resume."
        else "Please enter a Job Description for context.")] ∧
    ∀ p, Event.modelCall p ∉ screenCandidates envGood "" [fileReadable] "the jd") :=
  ⟨Or.inl rfl, C2_input_validation envGood "" [fileReadable] "the jd" (Or.inl rfl)⟩

/-- A client whose model call raises with a 404-style message, as when
the configured model id does not exist on the endpoint. -/
def envGen404 : Env :=
  { configure := fun _ => Except.ok ()
    generateContent := fun _ =>
      Except.error "404 models/gemini-2.5-flash is not found for API version v1beta" }

/-- Counterexample to C3 as stated: when the model call raises with a
message containing "404", `analyze_candidate` returns the fixed
library-upgrade hint, and the raw exception message does not occur in
the returned string at all. -/
theorem C3_counterexample :
    (analyze_candidate envGen404 "the resume text" "the job description" "key").2 =
      Except.ok model404Message ∧
    strIn "404 models/gemini-2.5-flash is not found for API version v1beta"
      model404Message = false := by
  exact ⟨rfl, by decide⟩

/-- C3 amended: for every résumé whose model call raises, the candidate
is not dropped: `analyze_candidate` returns a string, and when the
exception message does not contain "404" that string embeds the raw
message verbatim; a message containing "404" is replaced by the fixed
model-not-found hint instead. -/
theorem C3_amended (env : Env) (r jd key e : String)
    (hc : env.configure key = Except.ok ())
    (hg : env.generateContent (buildPrompt r jd) = Except.error e) :
    (strIn "404" e = false →
      (analyze_candidate env r jd key).2 = Except.ok ("Error processing candidate: " ++ e) ∧
      strIn e ("Error processing candidate: " ++ e) = true) ∧
    (strIn "404" e = true →
      (analyze_candidate env r jd key).2 = Except.ok model404Message) := by
  constructor
  · intro h404
    exact ⟨by simp [analyze_candidate, hc, hg, h404], strIn_append_self _ e⟩
  · intro h404
    simp [analyze_candidate, hc, hg, h404]

/-- A client whose model call raises with a non-404 message. -/
def envGenErr : Env :=
  { configure := fun _ => Except.ok ()
    generateContent := fun _ => Except.error "quota exceeded for project" }

/-- Witness for the amended C3 at a concrete non-404 model failure. -/
theorem C3_amended_witness :
    envGenErr.configure "k" = Except.ok () ∧
    envGenErr.generateContent (buildPrompt "res" "jd") =
      Except.error "quota exceeded for project" ∧
    strIn "404" "quota exceeded for project" = false ∧
    (analyze_candidate envGenErr "res" "jd" "k").2 =
      Except.ok ("Error processing candidate: " ++ "quota exceeded for project") ∧
    strIn "quota exceeded for project"
      ("Error processing candidate: " ++ "quota exceeded for project") = true := by
  have h := (C3_amended envGenErr "res" "jd" "k" "quota exceeded for project" rfl rfl).1
    (by decide)
  exact ⟨rfl, rfl, by decide, h.1, h.2⟩

/-- Event counts of one loop body: at most one model call, and never a
sleep (the sleep belongs to the loop, not the body). -/
theorem processFile_countP (env : Env) (jd key : String) (f : UploadedFile) :
    List.countP isModelCall (processFile env jd key f).1 ≤ 1 ∧
      List.countP isSleep (processFile env jd key f).1 = 0 := by
  rcases hgp : get_pdf_text f with ⟨evs, r⟩
  have hevs : evs = [] ∨ ∃ e, evs = [Event.error e] := by
    have := get_pdf_text_events f
    rwa [hgp] at this
  have hev1 : List.countP isModelCall evs = 0 := by
    rcases hevs with h0 | ⟨e, h0⟩ <;> subst h0 <;> simp [isModelCall]
  have hev2 : List.countP isSleep evs = 0 := by
    rcases hevs with h0 | ⟨e, h0⟩ <;> subst h0 <;> simp [isSleep]
  cases r with
  | none =>
      simp [processFile, hgp, List.countP_cons, List.countP_append, hev1, hev2,
        isModelCall, isSleep]
  | some t =>
      by_cases ht : t = ""
      · subst ht
        simp [processFile, hgp, List.countP_cons, List.countP_append, hev1, hev2,
          isModelCall, isSleep]
      · rcases ha : analyze_candidate env t jd key with ⟨aevs, ares⟩
        have hae : aevs = [] ∨ aevs = [Event.modelCall (buildPrompt t jd)] := by
          have := analyze_candidate_events env t jd key
          rwa [ha] at this
        cases ares with
        | ok analysis =>
            rcases hae with h0 | h0 <;> subst h0 <;>
              simp [processFile, hgp, ht, ha, List.countP_cons, List.countP_append,
                hev1, hev2, isModelCall, isSleep]
        | error e =>
            rcases hae with h0 | h0 <;> subst h0 <;>
              simp [processFile, hgp, ht, ha, List.countP_cons, List.countP_append,
                hev1, hev2, isModelCall, isSleep]

/-- When a run of the loop over `fs` raises nothing, prefixing `fs` to
any `gs` produces exactly the events of `fs` followed by the events of
`gs` started at the shifted index. -/
theorem processLoop_append (env : Env) (jd key : String) (n : Nat) :
    ∀ (fs : List UploadedFile) (i : Nat) (gs : List UploadedFile),
      (processLoop env jd key n i fs).2 = Except.ok () →
      (processLoop env jd key n i (fs ++ gs)).1 =
        (processLoop env jd key n i fs).1 ++ (processLoop env jd key n (i + fs.length) gs).1 ∧
      (processLoop env jd key n i (fs ++ gs)).2 =
        (processLoop env jd key n (i + fs.length) gs).2 := by
  intro fs
  induction fs with
  | nil => intro i gs h; simp [processLoop]
  | cons f rest ih =>
      intro i gs h
      rcases hpf : processFile env jd key f with ⟨evs, r⟩
      cases r with
      | error e => exact absurd h (by simp [processLoop, hpf])
      | ok u =>
          rcases hpl : processLoop env jd key n (i + 1) rest with ⟨evs2, r2⟩
          have h2 : r2 = Except.ok () := by
            have := h
            simp [processLoop, hpf, hpl] at this
            exact this
          have hrest := ih (i + 1) gs (by rw [hpl]; exact h2)
          have harith : i + 1 + rest.length = i + (rest.length + 1) := by omega
          rw [harith] at hrest
          rcases hplg : processLoop env jd key n (i + 1) (rest ++ gs) with ⟨evs3, r3⟩
          rw [hplg, hpl] at hrest
          constructor
          · simp [processLoop, hpf, hpl, hplg, List.length_cons, hrest.1]
          · simp [processLoop, hpf, hpl, hplg, List.length_cons, hrest.2]

/-- C5: processing of the upload batch is strictly sequential in upload
order: the event trace of a batch `fs ++ gs` (when `fs` raises nothing)
is the full trace of `fs` followed by the full trace of `gs`, so every
event of file i (read, model call, render) precedes every event of file
i+1; and each file performs at most one model call, so no two model
requests can overlap. -/
theorem C5_sequential_batch (env : Env) (jd key : String) (n i : Nat)
    (fs gs : List UploadedFile)
    (h : (processLoop env jd key n i fs).2 = Except.ok ()) :
    (processLoop env jd key n i (fs ++ gs)).1 =
      (processLoop env jd key n i fs).1 ++ (processLoop env jd key n (i + fs.length) gs).1 ∧
    ∀ f, List.countP isModelCall (processFile env jd key f).1 ≤ 1 :=
  ⟨(processLoop_append env jd key n fs i gs h).1,
    fun f => (processFile_countP env jd key f).1⟩

/-- Witness for C5 with a concrete two-file batch. -/
theorem C5_sequential_batch_witness :
    (processLoop envGood "a job" "a key" 2 0 [fileReadable]).2 = Except.ok () ∧
    ((processLoop envGood "a job" "a key" 2 0 ([fileReadable] ++ [fileUnreadable])).1 =
      (processLoop envGood "a job" "a key" 2 0 [fileReadable]).1 ++
        (processLoop envGood "a job" "a key" 2 (0 + [fileReadable].length) [fileUnreadable]).1 ∧
    ∀ f, List.countP isModelCall (processFile envGood "a job" "a key" f).1 ≤ 1) :=
  ⟨rfl, C5_sequential_batch envGood "a job" "a key" 2 0 [fileReadable] [fileUnreadable] rfl⟩

/-- Counterexample to C6 as stated: a batch consisting of one
unreadable PDF performs no model request at all, yet the loop still
executes the fixed `time.sleep(4)` once, so the delay is not inserted
only between model requests. -/
theorem C6_counterexample :
    List.countP isSleep (processLoop envGood "a job" "a key" 1 0 [fileUnreadable]).1 = 1 ∧
    List.countP isModelCall
      (processLoop envGood "a job" "a key" 1 0 [fileUnreadable]).1 = 0 := by
  exact ⟨rfl, rfl⟩

/-- Exactly one sleep is executed per processed file when the loop
completes without an exception. -/
theorem processLoop_sleep_count (env : Env) (jd key : String) (n : Nat) :
    ∀ (fs : List UploadedFile) (i : Nat),
      (processLoop env jd key n i fs).2 = Except.ok () →
      List.countP isSleep (processLoop env jd key n i fs).1 = fs.length := by
  intro fs
  induction fs with
  | nil => intro i h; simp [processLoop]
  | cons f rest ih =>
      intro i h
      rcases hpf : processFile env jd key f with ⟨evs, r⟩
      cases r with
      | error e => exact absurd h (by simp [processLoop, hpf])
      | ok u =>
          rcases hpl : processLoop env jd key n (i + 1) rest with ⟨evs2, r2⟩
          have h2 : r2 = Except.ok () := by
            have := h
            simp [processLoop, hpf, hpl] at this
            exact this
          have hrest := ih (i + 1) (by rw [hpl]; exact h2)
          rw [hpl] at hrest
          have hf0 : List.countP isSleep evs = 0 := by
            have := (processFile_countP env jd key f).2
            rw [hpf] at this
            simpa using this
          simp [processLoop, hpf, hpl, List.countP_cons, List.countP_append, hf0,
            isSleep] at hrest ⊢
          omega

/-- C6 amended: the fixed 4-second delay is executed once after every
file of the batch, whether or not that file triggered a model request
and also after the last file, rather than only between consecutive
requests; there is no retry: each résumé triggers at most one model
call, and the loop body itself never sleeps. -/
theorem C6_fixed_delay (env : Env) (jd key : String) (n i : Nat) (fs : List UploadedFile)
    (h : (processLoop env jd key n i fs).2 = Except.ok ()) :
    List.countP isSleep (processLoop env jd key n i fs).1 = fs.length ∧
    ∀ f, List.countP isModelCall (processFile env jd key f).1 ≤ 1 ∧
      List.countP isSleep (processFile env jd key f).1 = 0 :=
  ⟨processLoop_sleep_count env jd key n fs i h,
    fun f => processFile_countP env jd key f⟩

/-- Witness for the amended C6 at a concrete one-file batch. -/
theorem C6_fixed_delay_witness :
    (processLoop envGood "a job" "a key" 1 0 [fileReadable]).2 = Except.ok () ∧
    (List.countP isSleep (processLoop envGood "a job" "a key" 1 0 [fileReadable]).1 =
      [fileReadable].length ∧
    ∀ f, List.countP isModelCall (processFile envGood "a job" "a key" f).1 ≤ 1 ∧
      List.countP isSleep (processFile envGood "a job" "a key" f).1 = 0) :=
  ⟨rfl, C6_fixed_delay envGood "a job" "a key" 1 0 [fileReadable] rfl⟩

/-- C7: the prompt embeds the résumé text and the job description in
full between fixed, input-independent template pieces (no truncation or
length-dependent transformation), and every model call performed by
`analyze_candidate` carries exactly that prompt. -/
theorem C7_full_prompt :
    (∃ p m s : String, ∀ resume_text job_description,
      buildPrompt resume_text job_description =
        p ++ resume_text ++ m ++ job_description ++ s) ∧
    ∀ env r jd key q, Event.modelCall q ∈ (analyze_candidate env r jd key).1 →
      q = buildPrompt r jd := by
  constructor
  · exact ⟨promptPre, promptMid, promptSuf, fun _ _ => rfl⟩
  · intro env r jd key q hq
    rcases analyze_candidate_events env r jd key with h | h <;> rw [h] at hq
    · simp at hq
    · simpa using hq

/-- Witness for C7: in a concrete environment the one model call
carries the built prompt. -/
theorem C7_full_prompt_witness :
    Event.modelCall (buildPrompt "the resume" "the jd") ∈
      (analyze_candidate envGood "the resume" "the jd" "key").1 ∧
    buildPrompt "the resume" "the jd" = buildPrompt "the resume" "the jd" := by
  have h1 : (analyze_candidate envGood "the resume" "the jd" "key").1 =
      [Event.modelCall (buildPrompt "the resume" "the jd")] := rfl
  have hmem : Event.modelCall (buildPrompt "the resume" "the jd") ∈
      (analyze_candidate envGood "the resume" "the jd" "key").1 := by
    rw [h1]
    exact List.mem_singleton.mpr rfl
  exact ⟨hmem, C7_full_prompt.2 envGood "the resume" "the jd" "key" _ hmem⟩

/-- Modelled from the spec: the Candidate Assessment Record of the
structured variant, whose source is not under src/.  Only the fields
the leaderboard ordering touches are carried in full; `matchScore` is
the documented integer score. -/
structure AssessmentRecord where
  filename : String
  candidateName : String
  matchScore : Nat
  summary : String

/-- Modelled from the spec: insertion of a record into a list already
ordered by descending score.  The record is placed after every record
with a strictly greater score and before records scoring less or equal,
so that a record uploaded earlier keeps its place ahead of equal
scores. -/
def insertByScore (r : AssessmentRecord) : List AssessmentRecord → List AssessmentRecord
  | [] => [r]
  | x :: xs =>
      if r.matchScore < x.matchScore then x :: insertByScore r xs
      else r :: x :: xs

/-- Modelled from the spec: the leaderboard of the structured variant,
built from the assessment records in upload order: "the leaderboard is
always ordered by descending score; ties preserve upload order". -/
def leaderboard : List AssessmentRecord → List AssessmentRecord
  | [] => []
  | x :: xs => insertByScore x (leaderboard xs)

/-- Membership in an insertion. -/
theorem mem_insertByScore (r : AssessmentRecord) (l : List AssessmentRecord)
    (y : AssessmentRecord) : y ∈ insertByScore r l ↔ y = r ∨ y ∈ l := by
  induction l with
  | nil => simp [insertByScore]
  | cons x xs ih =>
      by_cases hlt : r.matchScore < x.matchScore <;>
        (simp [insertByScore, hlt, ih]; try tauto)

/-- Insertion preserves the descending-score ordering. -/
theorem pairwise_insertByScore (r : AssessmentRecord) (l : List AssessmentRecord)
    (h : List.Pairwise (fun a b => b.matchScore ≤ a.matchScore) l) :
    List.Pairwise (fun a b => b.matchScore ≤ a.matchScore) (insertByScore r l) := by
  induction l with
  | nil => simp [insertByScore]
  | cons x xs ih =>
      rcases List.pairwise_cons.mp h with ⟨hx, hxs⟩
      by_cases hlt : r.matchScore < x.matchScore
      · have hins : insertByScore r (x :: xs) = x :: insertByScore r xs := by
          simp only [insertByScore]
          rw [if_pos hlt]
        rw [hins]
        refine List.pairwise_cons.mpr ⟨?_, ih hxs⟩
        intro y hy
        rcases (mem_insertByScore r xs y).mp hy with h0 | h0
        · subst h0; omega
        · exact hx y h0
      · have hins : insertByScore r (x :: xs) = r :: x :: xs := by
          simp only [insertByScore]
          rw [if_neg hlt]
        rw [hins]
        refine List.pairwise_cons.mpr ⟨?_, h⟩
        intro y hy
        rcases List.mem_cons.mp hy with h0 | h0
        · subst h0; omega
        · exact Nat.le_trans (hx y h0) (by omega)

/-- Insertion is stable for each fixed score `s`: the records scoring
`s` keep their relative order, with the inserted record last among
nobody and first among none of the earlier list (it joins at the front
of its score class only when it matches `s` and the class is behind
strictly greater scores). -/
theorem filter_insertByScore (r : AssessmentRecord) (s : Nat) :
    ∀ l : List AssessmentRecord,
      (insertByScore r l).filter (fun x => x.matchScore == s) =
        if r.matchScore == s then r :: l.filter (fun x => x.matchScore == s)
        else l.filter (fun x => x.matchScore == s) := by
  intro l
  induction l with
  | nil =>
      by_cases hr : r.matchScore = s
      · have hb : (r.matchScore == s) = true := by simpa using hr
        simp [insertByScore, List.filter, hb]
      · have hb : (r.matchScore == s) = false := by simpa using hr
        simp [insertByScore, List.filter, hb]
  | cons x xs ih =>
      by_cases hlt : r.matchScore < x.matchScore
      · have hins : insertByScore r (x :: xs) = x :: insertByScore r xs := by
          simp only [insertByScore]
          rw [if_pos hlt]
        rw [hins]
        by_cases hr : r.matchScore = s
        · have hx : ¬ x.matchScore = s := by omega
          simp [List.filter_cons, hr, hx, ih]
        · by_cases hx : x.matchScore = s <;> simp [List.filter_cons, hr, hx, ih]
      · have hins : insertByScore r (x :: xs) = r :: x :: xs := by
          simp only [insertByScore]
          rw [if_neg hlt]
        rw [hins]
        by_cases hr : r.matchScore = s <;> simp [List.filter_cons, hr]

/-- The leaderboard is ordered by descending match score. -/
theorem leaderboard_sorted (rows : List AssessmentRecord) :
    List.Pairwise (fun a b => b.matchScore ≤ a.matchScore) (leaderboard rows) := by
  induction rows with
  | nil => simp [leaderboard]
  | cons x xs ih => exact pairwise_insertByScore x (leaderboard xs) ih

/-- For each score, the leaderboard lists the records scoring it in
upload order. -/
theorem leaderboard_stable (rows : List AssessmentRecord) (s : Nat) :
    (leaderboard rows).filter (fun x => x.matchScore == s) =
      rows.filter (fun x => x.matchScore == s) := by
  induction rows with
  | nil => rfl
  | cons x xs ih =>
      have h1 : leaderboard (x :: xs) = insertByScore x (leaderboard xs) := rfl
      rw [h1, filter_insertByScore x s (leaderboard xs)]
      by_cases hx : x.matchScore = s <;> simp [List.filter_cons, hx, ih]

/-- C8: the structured-variant leaderboard is always ordered by
descending match score, and rows with equal scores preserve upload
order (for every score, filtering the leaderboard to that score yields
the records in their original upload order). -/
theorem C8_leaderboard (rows : List AssessmentRecord) :
    List.Pairwise (fun a b => b.matchScore ≤ a.matchScore) (leaderboard rows) ∧
    ∀ s : Nat, (leaderboard rows).filter (fun x => x.matchScore == s) =
      rows.filter (fun x => x.matchScore == s) :=
  ⟨leaderboard_sorted rows, fun s => leaderboard_stable rows s⟩

/-- A client whose configuration step itself raises with a message
containing "404". -/
def envConf404 : Env :=
  { configure := fun _ => Except.error "404 configuration endpoint not found"
    generateContent := fun p => Except.ok p }

/-- Counterexample to C10 as stated: when `genai.configure` raises with
a message containing "404", the except handler evaluates an f-string
that reads the local `model_name`, which line 59 has not yet assigned,
so `analyze_candidate` does not return a string: an `UnboundLocalError`
propagates to the batch loop. -/
theorem C10_counterexample :
    (analyze_candidate envConf404 "the resume" "the jd" "the key").2 =
      Except.error unboundLocalMsg := rfl

/-- C10 amended: `analyze_candidate` returns a string on every path
except one: every exception of the model call is caught (a message with
"404" becomes the fixed library-upgrade hint, any other message is
surfaced), and a configuration exception without "404" is caught and
surfaced, but a configuration exception whose message contains "404"
makes the handler itself raise (its hint references the model-name
variable before assignment) and the exception propagates. -/
theorem C10_exception_totality (env : Env) (r jd key : String) :
    (∀ e, env.configure key = Except.error e → strIn "404" e = false →
      (analyze_candidate env r jd key).2 =
        Except.ok ("Error processing candidate: " ++ e)) ∧
    (env.configure key = Except.ok () →
      ∃ s, (analyze_candidate env r jd key).2 = Except.ok s) ∧
    (∀ e, env.configure key = Except.error e → strIn "404" e = true →
      (analyze_candidate env r jd key).2 = Except.error unboundLocalMsg) := by
  refine ⟨?_, ?_, ?_⟩
  · intro e hc h404
    simp [analyze_candidate, hc, h404]
  · intro hc
    cases hg : env.generateContent (buildPrompt r jd) with
    | ok t => exact ⟨t, by simp [analyze_candidate, hc, hg]⟩
    | error e =>
        cases h404 : strIn "404" e
        · exact ⟨"Error processing candidate: " ++ e,
            by simp [analyze_candidate, hc, hg, h404]⟩
        · exact ⟨model404Message, by simp [analyze_candidate, hc, hg, h404]⟩
  · intro e hc h404
    simp [analyze_candidate, hc, h404]

/-- Witness for the amended C10: a concrete well-behaved client. -/
theorem C10_exception_totality_witness :
    envGood.configure "the key" = Except.ok () ∧
    ∃ s, (analyze_candidate envGood "the resume" "the jd" "the key").2 = Except.ok s :=
  ⟨rfl, (C10_exception_totality envGood "the resume" "the jd" "the key").2.1 rfl⟩
